import Mathlib

/-
Verification of the Poll-Dedup-Persist ingestion core of the pr3c0g_synapse
repository.

The development shallowly embeds the two incremental ingestion loops:

  * the market candle ingestor, `app/moex_market/monitor.py`
    (`MarketMonitor.fetch_ticker_data`, `filter_new_candles`,
    `save_ticker_data`, `save_index_data`, `monitor_cycle`) together with the
    batched insert of `app/moex_market/database.py`
    (`ClickHouseDatabase.insert_ticker_candles_batch`), and

  * the news ingestor, `app/news_feeder/main.py` (`NewsFeeder.poll_channel`),
    `app/news_feeder/database.py` (`Database.save_news`, `message_exists`,
    `update_poll_state` over the models of `app/news_feeder/models.py`), and
    `app/news_feeder/parser.py` (`extract_tags`).

Modelling conventions:

  * Wall-clock instants are integers counting microseconds (Python `datetime`
    arithmetic is exact at microsecond granularity; `timedelta(hours=h)` is
    `h * 3600 * 1000000` microseconds).
  * `datetime.fromisoformat(s.replace(" ", "T"))` is an external library
    routine; it is modelled by an arbitrary partial parse function
    `parse : String -> Option Int` supplied as a parameter (`none` models a
    raised `ValueError`).  The empty string models a missing or empty
    `"begin"` / `"SYSTIME"` dictionary entry (`dict.get(key, "")`).
  * Python sets of strings are modelled as duplicate-free `List String`;
    `set.add` is a guarded cons and `set.discard` is a filter.
  * External capabilities (the MOEX HTTP client, the ClickHouse execute call,
    the Telegram client, the SQL session) are injected as `Except`-valued
    parameters: `Except.error e` models the call raising exception `e`, and
    the pattern matches on these values sit exactly where the corresponding
    Python `try/except` blocks sit.
  * A candle dict carries many OHLCV fields the ingestion logic never
    inspects; they are collapsed into an opaque `payload` field.
-/

/-- Exceptions raised by the market-data capabilities (HTTP client errors,
ClickHouse errors); `monitor.py` never inspects the exception value, so a
single constructor suffices. -/
inductive MErr where
  | err : MErr
deriving DecidableEq, Repr

/-- A candle record as returned by the MOEX client: only the `"begin"` string
is ever inspected by the ingestion logic (`candle.get("begin", "")`, with `""`
for a missing key); all other dict fields are opaque payload. -/
structure Candle where
  begin : String
  payload : Nat
deriving DecidableEq, Repr

/-- An index snapshot dict: only `"SYSTIME"` is inspected
(`index_data.get("SYSTIME", "")`); the rest is opaque payload. -/
structure IndexData where
  SYSTIME : String
  payload : Nat
deriving DecidableEq, Repr

/-- A persisted row of the `ticker_candles` table: the ticker together with
the candle it came from. -/
def Row : Type := String × Candle

instance : DecidableEq Row := instDecidableEqProd

deriving instance DecidableEq for Except

/-- The mutable state of a `MarketMonitor` instance plus the ClickHouse
store it writes to: `cache` is `self.cache` (per-ticker seen-set of begin
strings, a missing dict key being indistinguishable from an empty set),
`index_cache` is `self.index_cache`, `store` is the `ticker_candles` table
and `index_store` the `index_values` table (each a list of inserted rows,
in insertion order). -/
structure MonitorState where
  cache : String → List String
  index_cache : List String
  store : List Row
  index_store : List IndexData

/-- The state of a freshly constructed `MarketMonitor` over an empty store. -/
def initState : MonitorState :=
  { cache := fun _ => [], index_cache := [], store := [], index_store := [] }

/-- The ticker list of `MarketMonitor.get_tickers_list`. -/
def get_tickers_list : List String := ["SBER"]

/-- The window-filter loop inside `MarketMonitor.fetch_ticker_data`
(monitor.py lines 44-57): skip candles whose `begin` is missing or empty,
skip candles whose `begin` fails to parse (the caught `ValueError`), and keep
a candle exactly when its parsed begin time is at or after the threshold
`now - timedelta(hours=self.filter_hours)`. -/
def windowFilter (parse : String → Option Int) (threshold : Int) :
    List Candle → List Candle
  | [] => []
  | c :: rest =>
    if c.begin = "" then windowFilter parse threshold rest
    else
      match parse c.begin with
      | none => windowFilter parse threshold rest
      | some t =>
        if threshold ≤ t then c :: windowFilter parse threshold rest
        else windowFilter parse threshold rest

/-- `MarketMonitor.fetch_ticker_data` (monitor.py lines 27-61): `clientRes`
is the outcome of `self.moex_client.get_ticker_data` — any raised exception
is caught and turned into `[]`; an empty result returns `[]`; otherwise the
result is narrowed by the trailing window of `filter_hours` hours ending at
`now`. -/
def fetch_ticker_data (clientRes : Except MErr (List Candle))
    (parse : String → Option Int) (now fh : Int) : List Candle :=
  match clientRes with
  | .error _ => []
  | .ok data =>
    if data.isEmpty then []
    else windowFilter parse (now - fh * 3600 * 1000000) data

/-- The loop of `MarketMonitor.filter_new_candles` (monitor.py lines 67-77)
over one ticker's seen-set: returns the selected new candles and the updated
seen-set.  Candles with a missing or empty `begin` are skipped; a candle
whose `begin` is already in the seen-set is skipped; otherwise the candle is
selected and its `begin` added to the seen-set before the loop continues. -/
def filterNewLoop (seen : List String) :
    List Candle → List Candle × List String
  | [] => ([], seen)
  | c :: rest =>
    if c.begin = "" then filterNewLoop seen rest
    else if c.begin ∈ seen then filterNewLoop seen rest
    else
      let r := filterNewLoop (c.begin :: seen) rest
      (c :: r.1, r.2)

/-- `MarketMonitor.filter_new_candles` (monitor.py lines 63-77): runs the
selection loop against `self.cache[ticker]` (created empty when absent) and
writes the grown seen-set back into the cache. -/
def filter_new_candles (ticker : String) (candles : List Candle)
    (st : MonitorState) : List Candle × MonitorState :=
  let r := filterNewLoop (st.cache ticker) candles
  (r.1, { st with cache := fun t => if t = ticker then r.2 else st.cache t })

/-- The `values_list` built by `ClickHouseDatabase.insert_ticker_candles_batch`
(database.py lines 124-151): rows for candles with a present, non-empty and
parseable `begin`; candles with a missing or unparseable `begin` are skipped
with a warning. -/
def insert_values_list (parse : String → Option Int) (ticker : String)
    (candles : List Candle) : List Row :=
  candles.filterMap fun c =>
    if c.begin = "" then none
    else
      match parse c.begin with
      | none => none
      | some _ => some (ticker, c)

/-- `ClickHouseDatabase.insert_ticker_candles_batch` (database.py lines
111-161): an empty batch or an empty `values_list` returns without touching
the store (so without the possibility of failure); otherwise the single
`client.execute` call either appends all rows of `values_list` to the store
or raises, modelled by the injected outcome `execRes`. -/
def insert_ticker_candles_batch (parse : String → Option Int)
    (execRes : Except MErr Unit) (ticker : String) (candles : List Candle)
    (store : List Row) : Except MErr (List Row) :=
  if candles.isEmpty then .ok store
  else
    let vl := insert_values_list parse ticker candles
    if vl.isEmpty then .ok store
    else
      match execRes with
      | .ok _ => .ok (store ++ vl)
      | .error e => .error e

/-- The rollback loop in the `except` branch of
`MarketMonitor.save_ticker_data` (monitor.py lines 104-107): for each candle
of the failed batch, discard its `begin` string from the ticker's seen-set
(`set.discard`: removing an absent element is a no-op, so the membership
guard in the source is subsumed by the filter). -/
def discardBegins (new_data : List Candle) (seen : List String) :
    List String :=
  new_data.foldl (fun s c => s.filter (fun b => b ≠ c.begin)) seen

/-- `MarketMonitor.save_ticker_data` (monitor.py lines 87-107).  `new_dataQ`
models the optional `new_data` argument (`none` recomputes it via
`filter_new_candles`).  On a raised insert the begin-timestamps of the failed
batch are discarded from the ticker's seen-set.  The second component is the
observation needed by the optimistic-marking property: `some l` records the
value of the ticker's seen-set at the moment the persist call
`insert_ticker_candles_batch` is made (the code mutates no cache between
entry and that call), `none` means no persist call was made. -/
def save_ticker_data (parse : String → Option Int)
    (execRes : Except MErr Unit) (ticker : String) (data : List Candle)
    (new_dataQ : Option (List Candle)) (st : MonitorState) :
    MonitorState × Option (List String) :=
  if data.isEmpty then (st, none)
  else
    let p :=
      match new_dataQ with
      | some nd => (nd, st)
      | none => filter_new_candles ticker data st
    let new_data := p.1
    let st1 := p.2
    if new_data.isEmpty then (st1, none)
    else
      match insert_ticker_candles_batch parse execRes ticker new_data st1.store with
      | .ok store1 => ({ st1 with store := store1 }, some (st1.cache ticker))
      | .error _ =>
        ({ st1 with
            cache := fun t =>
              if t = ticker then discardBegins new_data (st1.cache t)
              else st1.cache t },
          some (st1.cache ticker))

/-- `MarketMonitor.fetch_index_data` (monitor.py lines 79-85): a raised
client exception is caught and yields the empty dict, and `index_data or
empty-dict` collapses a falsy result to the empty dict; the empty dict is
modelled as `none`. -/
def fetch_index_data (clientRes : Except MErr (Option IndexData)) :
    Option IndexData :=
  match clientRes with
  | .error _ => none
  | .ok d => d

/-- `MarketMonitor.save_index_data` (monitor.py lines 109-130): skip when the
dict is empty, when `SYSTIME` is missing or empty, or when the systime is
already in `self.index_cache`; otherwise call `insert_index_value` — on
success the systime is added to the cache afterwards, on a raised insert the
(necessarily absent) systime is discarded.  The second component records the
value of `index_cache` at the moment the persist call `insert_index_value`
is made, `none` meaning no persist call was made. -/
def save_index_data (execRes : Except MErr Unit)
    (index_data : Option IndexData) (st : MonitorState) :
    MonitorState × Option (List String) :=
  match index_data with
  | none => (st, none)
  | some d =>
    if d.SYSTIME = "" then (st, none)
    else if d.SYSTIME ∈ st.index_cache then (st, none)
    else
      match execRes with
      | .ok _ =>
        ({ st with
            index_store := st.index_store ++ [d],
            index_cache := d.SYSTIME :: st.index_cache },
          some st.index_cache)
      | .error _ =>
        ({ st with
            index_cache := st.index_cache.filter (fun s => s ≠ d.SYSTIME) },
          some st.index_cache)

/-- The per-ticker body of `MarketMonitor.monitor_cycle` (monitor.py lines
139-146) applied to an already-fetched candle list: when the fetch produced
candles, select the new ones with `filter_new_candles` and hand both lists to
`save_ticker_data`. -/
def candle_cycle (parse : String → Option Int) (execRes : Except MErr Unit)
    (ticker : String) (data : List Candle) (st : MonitorState) :
    MonitorState :=
  if data.isEmpty then st
  else
    let p := filter_new_candles ticker data st
    (save_ticker_data parse execRes ticker data (some p.1) p.2).1

/-- `MarketMonitor.monitor_cycle` (monitor.py lines 132-160) with all
external behaviour injected: per ticker the fetch outcome `fetchT ticker`
and insert outcome `insertT ticker`, then the index fetch and insert
outcomes.  Every sub-step catches its own exceptions (and the two `try`
blocks of the cycle catch anything else), so the second component — an
exception escaping the cycle to its caller — is `none`. -/
def monitor_cycle (fetchT : String → Except MErr (List Candle))
    (insertT : String → Except MErr Unit)
    (fetchI : Except MErr (Option IndexData)) (insertI : Except MErr Unit)
    (parse : String → Option Int) (now fh : Int) (st : MonitorState) :
    MonitorState × Option MErr :=
  let st1 := get_tickers_list.foldl
    (fun s ticker =>
      candle_cycle parse (insertT ticker) ticker
        (fetch_ticker_data (fetchT ticker) parse now fh) s)
    st
  let st2 := (save_index_data insertI (fetch_index_data fetchI) st1).1
  (st2, none)

/-- A word character of the regex class backslash-w, restricted to ASCII:
letters, digits and the underscore (the repository's hashtags are matched by
the pattern hash-sign followed by one or more word characters). -/
def isWordChar (c : Char) : Bool := c.isAlphanum || c = '_'

/-- The left-to-right scan of `re.findall` with the hashtag pattern of
`parser.py` line 9 (a hash sign capturing the following non-empty word-run):
matches are non-overlapping and greedy, so the captures are exactly the
maximal non-empty runs of word characters immediately preceded by a hash
sign.  The scanner state `cur` is `some revRun` while inside a candidate
capture (word characters seen so far, reversed), `none` otherwise; a run is
emitted when it ends, and a hash sign always opens a fresh candidate. -/
def scanTags (cur : Option (List Char)) : List Char → List String
  | [] =>
    match cur with
    | some revRun => if revRun.isEmpty then [] else [String.mk revRun.reverse]
    | none => []
  | c :: rest =>
    match cur with
    | some revRun =>
      if isWordChar c then scanTags (some (c :: revRun)) rest
      else
        let tail :=
          if c = '#' then scanTags (some []) rest else scanTags none rest
        if revRun.isEmpty then tail else String.mk revRun.reverse :: tail
    | none =>
      if c = '#' then scanTags (some []) rest else scanTags none rest

/-- The capture list of `re.findall(r"#(\w+)", text)` over the characters of
`text`. -/
def findTags (l : List Char) : List String := scanTags none l

/-- Python `str.lower` restricted to ASCII, applied characterwise. -/
def lowerStr (s : String) : String := String.mk (s.data.map Char.toLower)

/-- `extract_tags` of `app/news_feeder/parser.py` (lines 5-14): empty input
short-circuits to the empty list; otherwise the found hashtag captures are
lower-cased and de-duplicated.  The source materialises a Python `set`,
whose iteration order is arbitrary; the model fixes `List.dedup`, so the
result is determined up to the permutation the claims never depend on. -/
def extract_tags (text : String) : List String :=
  if text = "" then []
  else ((findTags text.data).map lowerStr).dedup

/-- A row of the `news` table (`models.py` lines 16-29) minus the
auto-assigned surrogate `id` (the row's position in the table list plays
that role).  The unique constraint `uq_news_msg_channel` covers
`(msg_id, channel)`. -/
structure NewsRow where
  msg_id : Int
  channel : String
  date : Int
  tags : List String
  text : String
deriving DecidableEq, Repr

/-- The news store: the `news` table in insertion order and the
`polling_state` table as an association list keyed by its primary key
`channel`. -/
structure NewsDb where
  news : List NewsRow
  poll : List (String × Int)
deriving DecidableEq, Repr

/-- An empty news database. -/
def emptyNewsDb : NewsDb := { news := [], poll := [] }

/-- `Database.message_exists` (news_feeder/database.py lines 53-58): an
existence query for a row with the given `(msg_id, channel)`. -/
def message_exists (msg_id : Int) (channel : String) (db : NewsDb) : Bool :=
  db.news.any fun r => r.msg_id == msg_id && r.channel == channel

/-- The store-level insert under the unique constraint
`uq_news_msg_channel`: inserting a row whose `(msg_id, channel)` pair is
already present raises `IntegrityError` (modelled as `Except.error ()`),
otherwise the row is appended. -/
def insertNews (r : NewsRow) (rows : List NewsRow) :
    Except Unit (List NewsRow) :=
  if rows.any (fun x => x.msg_id == r.msg_id && x.channel == r.channel) then
    .error ()
  else .ok (rows ++ [r])

/-- `Database.save_news` (news_feeder/database.py lines 60-88): if a row
with the pair already exists, return `false` without touching the store;
otherwise attempt the insert — a caught `IntegrityError` rolls back and
returns `false`, success commits the new row and returns `true`. -/
def save_news (msg_id : Int) (channel : String) (date : Int)
    (tags : List String) (text : String) (db : NewsDb) : Bool × NewsDb :=
  if message_exists msg_id channel db then (false, db)
  else
    match insertNews ⟨msg_id, channel, date, tags, text⟩ db.news with
    | .ok rows => (true, { db with news := rows })
    | .error _ => (false, db)

/-- `Database.update_poll_state` (news_feeder/database.py lines 100-116):
select the `polling_state` row for the channel; overwrite its
`last_poll_time` when present, otherwise insert a fresh row. -/
def update_poll_state (channel : String) (t : Int) (db : NewsDb) : NewsDb :=
  if db.poll.any (fun p => p.1 == channel) then
    { db with
        poll := db.poll.map fun p => if p.1 == channel then (channel, t) else p }
  else { db with poll := db.poll ++ [(channel, t)] }

/-- The stored `last_poll_time` for a channel, read off the
`polling_state` table (as `Database.get_last_poll_state` does). -/
def getLastPollTime (channel : String) (db : NewsDb) : Option Int :=
  (db.poll.find? fun p => p.1 == channel).map fun p => p.2

/-- Exceptions arising while polling a channel, as distinguished by the
handlers of `NewsFeeder.poll_channel`: `ValueError` and
`ChannelPrivateError` from entity resolution, `FloodWaitError` with its
cooldown, and any other `Exception` (Telegram, SQL session, ...). -/
inductive NErr where
  | valueError : NErr
  | channelPrivate : NErr
  | floodWait : Nat → NErr
  | other : NErr
deriving DecidableEq, Repr

/-- A fetched Telegram message: the fields `poll_channel` reads (`msg.id`,
`msg.text`, `msg.date`; an absent text is the empty string, timezone
adjustment is identity on the integer instant). -/
structure Msg where
  id : Int
  text : String
  date : Int
deriving DecidableEq, Repr

/-- One `self.db.save_news(...)` call as seen from `poll_channel`: the
underlying SQL session may itself raise (injected as `some e`), otherwise
the call runs `save_news` against the store and returns its flag. -/
def save_news_call (errQ : Option NErr) (msg_id : Int) (channel : String)
    (date : Int) (tags : List String) (text : String) (db : NewsDb) :
    Except NErr Bool × NewsDb :=
  match errQ with
  | some e => (.error e, db)
  | none =>
    let r := save_news msg_id channel date tags text db
    (.ok r.1, r.2)

/-- The message loop of `NewsFeeder.poll_channel` (main.py lines 45-66):
messages without text are skipped; for the others the hashtags are
extracted and `save_news` is attempted.  The result carries the store after
the committed saves and, when some save raised, the escaping exception
(which aborts the rest of the loop). -/
def pollLoop (saveErr : Nat → Option NErr) (channel : String) :
    List Msg → Nat → NewsDb → NewsDb × Option NErr
  | [], _, db => (db, none)
  | m :: rest, i, db =>
    if m.text = "" then pollLoop saveErr channel rest (i + 1) db
    else
      match save_news_call (saveErr i) m.id channel m.date
          (extract_tags m.text) m.text db with
      | (.error e, db1) => (db1, some e)
      | (.ok _, db1) => pollLoop saveErr channel rest (i + 1) db1

/-- The two trailing handlers of `NewsFeeder.poll_channel` (main.py lines
78-84): `except FloodWaitError` sleeps and returns, `except Exception` logs
and returns; either way the raised exception is swallowed and the store is
left as the body left it. -/
def outerHandlers (_ : NErr) (db : NewsDb) : NewsDb × Option NErr :=
  (db, none)

/-- `NewsFeeder.poll_channel` (main.py lines 24-84) with external behaviour
injected: `entityRes` is the `get_entity` outcome (with `ValueError` and
`ChannelPrivateError` handled by their dedicated inner handlers, lines
28-35), `msgsRes` the `get_messages` outcome, `saveErr i` an exception
raised by the i-th `save_news` session, `updErr` an exception raised by
`update_poll_state`.  After a completed message loop the poll cursor is
unconditionally overwritten with the current wall-clock time `now`.  The
second component is an exception escaping `poll_channel` to its caller. -/
def poll_channel (entityRes : Except NErr Unit)
    (msgsRes : Except NErr (List Msg)) (saveErr : Nat → Option NErr)
    (updErr : Option NErr) (channel : String) (now : Int) (db : NewsDb) :
    NewsDb × Option NErr :=
  match entityRes with
  | .error .valueError => (db, none)
  | .error .channelPrivate => (db, none)
  | .error e => outerHandlers e db
  | .ok _ =>
    match msgsRes with
    | .error e => outerHandlers e db
    | .ok msgs =>
      let r := pollLoop saveErr channel msgs 0 db
      match r.2 with
      | some e => outerHandlers e r.1
      | none =>
        match updErr with
        | some e => outerHandlers e r.1
        | none => (update_poll_state channel now r.1, none)

/-- One deferred `save_news` invocation, for reasoning about arbitrary later
traffic against the news store. -/
structure SaveOp where
  msg_id : Int
  channel : String
  date : Int
  tags : List String
  text : String
deriving DecidableEq, Repr

/-- Replay a sequence of `save_news` calls against the store. -/
def saveMany (db : NewsDb) (ops : List SaveOp) : NewsDb :=
  ops.foldl
    (fun d o => (save_news o.msg_id o.channel o.date o.tags o.text d).2) db

/-- The number of rows of the news table carrying a given
`(msg_id, channel)` pair. -/
def countPair (msg_id : Int) (channel : String) (db : NewsDb) : Nat :=
  db.news.countP fun r => r.msg_id == msg_id && r.channel == channel

/-- A concrete parse table for the begin strings of the end-to-end scenario
(2024-01-01, microseconds since local midnight of that day): the three
source candles at 09:30, 09:31, 09:32, the exact window boundary 09:00 when
now is 10:00 with a one-hour window, and one microsecond before it. -/
def parse0 : String → Option Int := fun s =>
  if s = "2024-01-01 09:30:00" then some ((9 * 60 + 30) * 60 * 1000000)
  else if s = "2024-01-01 09:31:00" then some ((9 * 60 + 31) * 60 * 1000000)
  else if s = "2024-01-01 09:32:00" then some ((9 * 60 + 32) * 60 * 1000000)
  else if s = "2024-01-01 09:00:00" then some (9 * 3600 * 1000000)
  else if s = "2024-01-01 08:59:59.999999" then some (9 * 3600 * 1000000 - 1)
  else none

/-- The scenario instant now = 10:00 on 2024-01-01, in microseconds since
local midnight. -/
def now0 : Int := 10 * 3600 * 1000000

/-- The scenario source response: candles with begin values 09:30, 09:31,
09:32. -/
def candles0 : List Candle :=
  [⟨"2024-01-01 09:30:00", 0⟩, ⟨"2024-01-01 09:31:00", 1⟩,
   ⟨"2024-01-01 09:32:00", 2⟩]


/-- Every candle selected by the `filter_new_candles` loop comes from the
input, has a non-empty begin string, and was not in the seen-set on entry. -/
theorem filterNewLoop_mem_new (candles : List Candle) (seen : List String)
    (c : Candle) (hc : c ∈ (filterNewLoop seen candles).1) :
    c ∈ candles ∧ c.begin ≠ "" ∧ c.begin ∉ seen := by
  induction candles generalizing seen with
  | nil => simp [filterNewLoop] at hc
  | cons d rest ih =>
    by_cases hd : d.begin = ""
    · simp only [filterNewLoop, if_pos hd] at hc
      rcases ih seen hc with ⟨h1, h2, h3⟩
      exact ⟨List.mem_cons_of_mem d h1, h2, h3⟩
    · by_cases hmem : d.begin ∈ seen
      · simp only [filterNewLoop, if_neg hd, if_pos hmem] at hc
        rcases ih seen hc with ⟨h1, h2, h3⟩
        exact ⟨List.mem_cons_of_mem d h1, h2, h3⟩
      · simp only [filterNewLoop, if_neg hd, if_neg hmem] at hc
        rcases List.mem_cons.mp hc with hce | hce
        · subst hce
          exact ⟨List.mem_cons_self c rest, hd, hmem⟩
        · rcases ih (d.begin :: seen) hce with ⟨h1, h2, h3⟩
          exact ⟨List.mem_cons_of_mem d h1, h2,
            fun hs => h3 (List.mem_cons_of_mem _ hs)⟩

/-- The seen-set returned by the `filter_new_candles` loop holds exactly the
old members together with the begin strings of the selected candles. -/
theorem filterNewLoop_mem_seen (candles : List Candle) (seen : List String)
    (b : String) :
    b ∈ (filterNewLoop seen candles).2 ↔
      b ∈ seen ∨ b ∈ (filterNewLoop seen candles).1.map Candle.begin := by
  induction candles generalizing seen with
  | nil => simp [filterNewLoop]
  | cons d rest ih =>
    by_cases hd : d.begin = ""
    · simp only [filterNewLoop, if_pos hd]
      exact ih seen
    · by_cases hmem : d.begin ∈ seen
      · simp only [filterNewLoop, if_neg hd, if_pos hmem]
        exact ih seen
      · simp only [filterNewLoop, if_neg hd, if_neg hmem, List.map_cons,
          List.mem_cons]
        rw [ih (d.begin :: seen)]
        simp only [List.mem_cons]
        tauto

/-- The begin strings of the candles selected by the `filter_new_candles`
loop are pairwise distinct. -/
theorem filterNewLoop_nodup (candles : List Candle) (seen : List String) :
    ((filterNewLoop seen candles).1.map Candle.begin).Nodup := by
  induction candles generalizing seen with
  | nil => simp [filterNewLoop]
  | cons d rest ih =>
    by_cases hd : d.begin = ""
    · simp only [filterNewLoop, if_pos hd]
      exact ih seen
    · by_cases hmem : d.begin ∈ seen
      · simp only [filterNewLoop, if_neg hd, if_pos hmem]
        exact ih seen
      · simp only [filterNewLoop, if_neg hd, if_neg hmem, List.map_cons,
          List.nodup_cons]
        refine ⟨fun hin => ?_, ih (d.begin :: seen)⟩
        rcases List.mem_map.mp hin with ⟨c, hc, hcb⟩
        rcases filterNewLoop_mem_new rest (d.begin :: seen) c hc
          with ⟨_, _, h3⟩
        exact h3 (hcb ▸ List.mem_cons_self d.begin seen)

/-- When every non-empty begin string of the input is already in the
seen-set, the `filter_new_candles` loop selects nothing and leaves the
seen-set untouched. -/
theorem filterNewLoop_all_seen (candles : List Candle) (seen : List String)
    (h : ∀ c ∈ candles, c.begin ≠ "" → c.begin ∈ seen) :
    filterNewLoop seen candles = ([], seen) := by
  induction candles with
  | nil => simp [filterNewLoop]
  | cons d rest ih =>
    by_cases hd : d.begin = ""
    · simp only [filterNewLoop, if_pos hd]
      exact ih fun c hc => h c (List.mem_cons_of_mem d hc)
    · have hmem : d.begin ∈ seen := h d (List.mem_cons_self d rest) hd
      simp only [filterNewLoop, if_neg hd, if_pos hmem]
      exact ih fun c hc => h c (List.mem_cons_of_mem d hc)

/-- After the `filter_new_candles` loop, every non-empty begin string of the
input is in the returned seen-set. -/
theorem filterNewLoop_covers (candles : List Candle) (seen : List String)
    (c : Candle) (hc : c ∈ candles) (hne : c.begin ≠ "") :
    c.begin ∈ (filterNewLoop seen candles).2 := by
  induction candles generalizing seen with
  | nil => simp at hc
  | cons d rest ih =>
    by_cases hd : d.begin = ""
    · simp only [filterNewLoop, if_pos hd]
      rcases List.mem_cons.mp hc with hce | hce
      · exact absurd (hce ▸ hd) hne
      · exact ih seen hce
    · by_cases hmem : d.begin ∈ seen
      · simp only [filterNewLoop, if_neg hd, if_pos hmem]
        rcases List.mem_cons.mp hc with hce | hce
        · subst hce
          rw [filterNewLoop_mem_seen]
          exact Or.inl hmem
        · exact ih seen hce
      · simp only [filterNewLoop, if_neg hd, if_neg hmem]
        rcases List.mem_cons.mp hc with hce | hce
        · subst hce
          rw [filterNewLoop_mem_seen]
          exact Or.inl (List.mem_cons_self _ _)
        · exact ih (d.begin :: seen) hce

/-- The selection made by the `filter_new_candles` loop depends on the
seen-set only through membership. -/
theorem filterNewLoop_congr (candles : List Candle)
    (seen1 seen2 : List String) (h : ∀ b, b ∈ seen1 ↔ b ∈ seen2) :
    (filterNewLoop seen1 candles).1 = (filterNewLoop seen2 candles).1 := by
  induction candles generalizing seen1 seen2 with
  | nil => simp [filterNewLoop]
  | cons d rest ih =>
    by_cases hd : d.begin = ""
    · simp only [filterNewLoop, if_pos hd]
      exact ih seen1 seen2 h
    · by_cases hmem : d.begin ∈ seen1
      · have hmem2 : d.begin ∈ seen2 := (h d.begin).mp hmem
        simp only [filterNewLoop, if_neg hd, if_pos hmem, if_pos hmem2]
        exact ih seen1 seen2 h
      · have hmem2 : d.begin ∉ seen2 := fun hx => hmem ((h d.begin).mpr hx)
        simp only [filterNewLoop, if_neg hd, if_neg hmem, if_neg hmem2]
        have := ih (d.begin :: seen1) (d.begin :: seen2)
          (fun b => by simp only [List.mem_cons]; rw [h b])
        simp only [this]

/-- Membership after the rollback loop: a begin string survives exactly when
it was present and does not occur in the discarded batch. -/
theorem mem_discardBegins (new_data : List Candle) (seen : List String)
    (b : String) :
    b ∈ discardBegins new_data seen ↔
      b ∈ seen ∧ b ∉ new_data.map Candle.begin := by
  induction new_data generalizing seen with
  | nil => simp [discardBegins]
  | cons d rest ih =>
    have hstep : discardBegins (d :: rest) seen =
        discardBegins rest (seen.filter fun x => x ≠ d.begin) := rfl
    rw [hstep, ih]
    simp only [List.mem_filter, List.map_cons, List.mem_cons, decide_eq_true_eq]
    constructor
    · rintro ⟨⟨h1, h2⟩, h3⟩
      exact ⟨h1, fun hx => hx.elim h2 h3⟩
    · rintro ⟨h1, h2⟩
      exact ⟨⟨h1, fun hx => h2 (Or.inl hx)⟩, fun hx => h2 (Or.inr hx)⟩

/-- With a succeeding execute call, the batched insert returns the store
extended with exactly the rows of the batch `values_list`. -/
theorem insert_batch_ok (parse : String → Option Int) (ticker : String)
    (nd : List Candle) (store : List Row) :
    insert_ticker_candles_batch parse (.ok ()) ticker nd store =
      .ok (store ++ insert_values_list parse ticker nd) := by
  by_cases hnd : nd.isEmpty
  · have : nd = [] := List.isEmpty_iff.mp hnd
    subst this
    simp [insert_ticker_candles_batch, insert_values_list]
  · simp only [insert_ticker_candles_batch, if_neg hnd]
    by_cases hvl : (insert_values_list parse ticker nd).isEmpty
    · have : insert_values_list parse ticker nd = [] :=
        List.isEmpty_iff.mp hvl
      simp [if_pos hvl, this]
    · simp [if_neg hvl]

/-- `filter_new_candles` leaves the candle store untouched. -/
theorem filter_new_candles_store (ticker : String) (candles : List Candle)
    (st : MonitorState) :
    (filter_new_candles ticker candles st).2.store = st.store := rfl

/-- `filter_new_candles` installs the seen-set the loop returns for the
processed ticker. -/
theorem filter_new_candles_cache_self (ticker : String)
    (candles : List Candle) (st : MonitorState) :
    (filter_new_candles ticker candles st).2.cache ticker =
      (filterNewLoop (st.cache ticker) candles).2 := by
  simp [filter_new_candles]

/-- A saving step with a succeeding execute call never touches any seen-set. -/
theorem save_ticker_data_ok_cache (parse : String → Option Int)
    (ticker : String) (data nd : List Candle) (st : MonitorState) :
    ((save_ticker_data parse (.ok ()) ticker data (some nd) st).1).cache =
      st.cache := by
  by_cases hd : data = []
  · simp [save_ticker_data, hd]
  · by_cases hnd : nd = []
    · simp [save_ticker_data, hd, hnd]
    · simp [save_ticker_data, hd, hnd, insert_batch_ok]

/-- With a succeeding execute call and a non-empty fetch and batch, the
store grows by exactly the batch `values_list`. -/
theorem save_ticker_data_ok_store (parse : String → Option Int)
    (ticker : String) (data nd : List Candle) (st : MonitorState)
    (hd : data ≠ []) (hnd : nd ≠ []) :
    ((save_ticker_data parse (.ok ()) ticker data (some nd) st).1).store =
      st.store ++ insert_values_list parse ticker nd := by
  simp [save_ticker_data, hd, hnd, insert_batch_ok]

/-- After a successful candle cycle over a fetched list, the ticker's
seen-set is exactly what the selection loop returns. -/
theorem candle_cycle_ok_cache (parse : String → Option Int)
    (ticker : String) (data : List Candle) (st : MonitorState) :
    (candle_cycle parse (.ok ()) ticker data st).cache ticker =
      (filterNewLoop (st.cache ticker) data).2 := by
  by_cases hd : data = []
  · subst hd
    simp [candle_cycle, filterNewLoop]
  · have hde : ¬ data.isEmpty := by simp [hd]
    simp only [candle_cycle, if_neg hde]
    rw [save_ticker_data_ok_cache]
    exact filter_new_candles_cache_self ticker data st

/-- C1: replaying the candle ingestion cycle (`filter_new_candles` followed
by a successful persist) with the identical source response persists zero
additional rows, for every ticker, every fetched candle list and every
starting state; in particular, for the scenario source candles with begin
values 09:30, 09:31, 09:32 at `filter_hours = 1` and now = 10:00, all three
pass the window filter, the first cycle persists 3 rows, an identical second
cycle persists 0 additional rows, and the seen-set for the ticker has size
3. -/
theorem C1_idempotent_replay :
    (∀ (parse : String → Option Int) (ticker : String) (data : List Candle)
        (st : MonitorState),
      (candle_cycle parse (.ok ()) ticker data
          (candle_cycle parse (.ok ()) ticker data st)).store =
        (candle_cycle parse (.ok ()) ticker data st).store) ∧
    (fetch_ticker_data (.ok candles0) parse0 now0 1 = candles0 ∧
      (candle_cycle parse0 (.ok ()) "SBER"
        (fetch_ticker_data (.ok candles0) parse0 now0 1)
        initState).store.length = 3 ∧
      (candle_cycle parse0 (.ok ()) "SBER"
          (fetch_ticker_data (.ok candles0) parse0 now0 1)
          (candle_cycle parse0 (.ok ()) "SBER"
            (fetch_ticker_data (.ok candles0) parse0 now0 1)
            initState)).store =
        (candle_cycle parse0 (.ok ()) "SBER"
          (fetch_ticker_data (.ok candles0) parse0 now0 1)
          initState).store ∧
      ((candle_cycle parse0 (.ok ()) "SBER"
        (fetch_ticker_data (.ok candles0) parse0 now0 1)
        initState).cache "SBER").length = 3) := by
  constructor
  · intro parse ticker data st
    by_cases hd : data = []
    · subst hd
      simp [candle_cycle]
    · have hde : ¬ data.isEmpty := by simp [hd]
      have hcache : (candle_cycle parse (.ok ()) ticker data st).cache ticker
          = (filterNewLoop (st.cache ticker) data).2 :=
        candle_cycle_ok_cache parse ticker data st
      set st1 := candle_cycle parse (.ok ()) ticker data st with hst1
      have hall : ∀ c ∈ data, c.begin ≠ "" → c.begin ∈ st1.cache ticker := by
        intro c hc hne
        rw [hcache]
        exact filterNewLoop_covers data (st.cache ticker) c hc hne
      have hfl : filterNewLoop (st1.cache ticker) data = ([], st1.cache ticker) :=
        filterNewLoop_all_seen data (st1.cache ticker) hall
      have h1 : (filter_new_candles ticker data st1).1 = [] := by
        simp [filter_new_candles, hfl]
      simp only [candle_cycle, if_neg hde]
      rw [h1]
      simp [save_ticker_data, hd, filter_new_candles_store]
  · refine ⟨by decide, by decide, by decide, by decide⟩

/-- A failing batched insert is only possible for a non-empty batch. -/
theorem insert_batch_err_ne_nil (parse : String → Option Int) (e : MErr)
    (ticker : String) (nd : List Candle) (store : List Row)
    (hfail : insert_ticker_candles_batch parse (.error e) ticker nd store =
      .error e) : nd ≠ [] := by
  intro h
  rw [h] at hfail
  simp [insert_ticker_candles_batch] at hfail

/-- When the batched insert raises, `save_ticker_data` rolls the batch's
begin strings out of the ticker's seen-set and leaves the store alone. -/
theorem save_ticker_data_err (parse : String → Option Int) (e : MErr)
    (ticker : String) (data nd : List Candle) (st : MonitorState)
    (hd : data ≠ [])
    (hfail : insert_ticker_candles_batch parse (.error e) ticker nd st.store =
      .error e) :
    (save_ticker_data parse (.error e) ticker data (some nd) st).1 =
      { st with
          cache := fun t =>
            if t = ticker then discardBegins nd (st.cache t)
            else st.cache t } := by
  have hnd : nd ≠ [] := insert_batch_err_ne_nil parse e ticker nd st.store hfail
  simp [save_ticker_data, hd, hnd, hfail]

/-- On a failing insert outcome, the seen-sets after `save_ticker_data` are
either untouched or the processed ticker's set with the batch begins
discarded. -/
theorem save_ticker_data_err_cases (parse : String → Option Int) (e : MErr)
    (ticker : String) (data nd : List Candle) (st : MonitorState) :
    ((save_ticker_data parse (.error e) ticker data (some nd) st).1).cache =
        st.cache ∨
      ((save_ticker_data parse (.error e) ticker data (some nd) st).1).cache =
        fun t =>
          if t = ticker then discardBegins nd (st.cache t) else st.cache t := by
  by_cases hd : data = []
  · left
    simp [save_ticker_data, hd]
  · by_cases hnd : nd = []
    · left
      simp [save_ticker_data, hd, hnd]
    · by_cases hfail : insert_ticker_candles_batch parse (.error e) ticker nd
        st.store = .error e
    
      · right
        rw [save_ticker_data_err parse e ticker data nd st hd hfail]
      · left
        rcases hres : insert_ticker_candles_batch parse (.error e) ticker nd
          st.store with store1 | store1
        · cases e
          cases store1
          exact absurd hres hfail
        · simp [save_ticker_data, hd, hnd, hres]

/-- Rolling the freshly selected begin strings back out of the grown
seen-set restores exactly the membership the seen-set had before the
selection. -/
theorem rollback_seen_ext (data : List Candle) (seen : List String)
    (b : String) :
    b ∈ discardBegins (filterNewLoop seen data).1
        (filterNewLoop seen data).2 ↔ b ∈ seen := by
  rw [mem_discardBegins]
  constructor
  · rintro ⟨h2, hnot⟩
    rcases (filterNewLoop_mem_seen data seen b).mp h2 with h | h
    · exact h
    · exact absurd h hnot
  · intro hb
    refine ⟨(filterNewLoop_mem_seen data seen b).mpr (Or.inl hb), fun hmap => ?_⟩
    rcases List.mem_map.mp hmap with ⟨c, hc, hcb⟩
    rcases filterNewLoop_mem_new data seen c hc with ⟨_, _, h3⟩
    exact h3 (hcb ▸ hb)

/-- A candle cycle with a succeeding execute call appends to the store
exactly the `values_list` rows of the batch its selection step returns. -/
theorem candle_cycle_ok_store (parse : String → Option Int) (ticker : String)
    (data : List Candle) (st : MonitorState) :
    (candle_cycle parse (.ok ()) ticker data st).store =
      st.store ++
        insert_values_list parse ticker
          (filter_new_candles ticker data st).1 := by
  by_cases hd : data = []
  · subst hd
    simp [candle_cycle, filter_new_candles, filterNewLoop, insert_values_list]
  · have hde : ¬ data.isEmpty := by simp [hd]
    simp only [candle_cycle, if_neg hde]
    by_cases hnd : (filter_new_candles ticker data st).1 = []
    · rw [hnd]
      simp [save_ticker_data, hd, filter_new_candles_store, hnd,
        insert_values_list]
    · rw [save_ticker_data_ok_store parse ticker data _ _ hd hnd,
        filter_new_candles_store]

/-- C2: when the batched insert raised for the cycle's freshly selected
batch, every begin timestamp of that batch is removed from the ticker's
seen-set, a subsequent cycle over the identical source data selects exactly
the same batch again, and its successful persist appends exactly that
batch's rows to the store. -/
theorem C2_rollback_reattempt (parse : String → Option Int) (e : MErr)
    (ticker : String) (data : List Candle) (st : MonitorState)
    (hIns : insert_ticker_candles_batch parse (.error e) ticker
        (filter_new_candles ticker data st).1
        ((filter_new_candles ticker data st).2).store = .error e) :
    (∀ c ∈ (filter_new_candles ticker data st).1,
        c.begin ∉
          (candle_cycle parse (.error e) ticker data st).cache ticker) ∧
      (filter_new_candles ticker data
          (candle_cycle parse (.error e) ticker data st)).1 =
        (filter_new_candles ticker data st).1 ∧
      (candle_cycle parse (.ok ()) ticker data
          (candle_cycle parse (.error e) ticker data st)).store =
        st.store ++
          insert_values_list parse ticker
            (filter_new_candles ticker data st).1 := by
  have hp1 : (filter_new_candles ticker data st).1 ≠ [] :=
    insert_batch_err_ne_nil parse e ticker _ _ hIns
  have hdata : data ≠ [] := by
    intro h
    apply hp1
    subst h
    rfl
  have hde : ¬ data.isEmpty := by simp [hdata]
  have hst2 : candle_cycle parse (.error e) ticker data st =
      { (filter_new_candles ticker data st).2 with
          cache := fun t =>
            if t = ticker then
              discardBegins (filter_new_candles ticker data st).1
                ((filter_new_candles ticker data st).2.cache t)
            else (filter_new_candles ticker data st).2.cache t } := by
    simp only [candle_cycle, if_neg hde]
    exact save_ticker_data_err parse e ticker data _ _ hdata hIns
  have hcache2 : (candle_cycle parse (.error e) ticker data st).cache ticker =
      discardBegins (filterNewLoop (st.cache ticker) data).1
        (filterNewLoop (st.cache ticker) data).2 := by
    rw [hst2]
    simp [filter_new_candles]
  have hext : ∀ b,
      b ∈ (candle_cycle parse (.error e) ticker data st).cache ticker ↔
        b ∈ st.cache ticker := by
    intro b
    rw [hcache2]
    exact rollback_seen_ext data (st.cache ticker) b
  have hsame : (filter_new_candles ticker data
      (candle_cycle parse (.error e) ticker data st)).1 =
      (filter_new_candles ticker data st).1 := by
    show (filterNewLoop
      ((candle_cycle parse (.error e) ticker data st).cache ticker) data).1 =
      (filterNewLoop (st.cache ticker) data).1
    exact filterNewLoop_congr data _ _ hext
  refine ⟨?_, hsame, ?_⟩
  · intro c hc hmem
    rw [hcache2] at hmem
    rcases (mem_discardBegins _ _ _).mp hmem with ⟨_, hnot⟩
    exact hnot (List.mem_map_of_mem Candle.begin hc)
  · have hstore2 : (candle_cycle parse (.error e) ticker data st).store =
        st.store := by
      rw [hst2]
      rfl
    rw [candle_cycle_ok_store, hsame, hstore2]

/-- Witness for C2 at a concrete input: the scenario batch against a raising
insert. -/
theorem C2_rollback_reattempt_witness :
    insert_ticker_candles_batch parse0 (.error MErr.err) "SBER"
        (filter_new_candles "SBER" candles0 initState).1
        ((filter_new_candles "SBER" candles0 initState).2).store =
      .error MErr.err ∧
      ((∀ c ∈ (filter_new_candles "SBER" candles0 initState).1,
          c.begin ∉
            (candle_cycle parse0 (.error MErr.err) "SBER" candles0
              initState).cache "SBER") ∧
        (filter_new_candles "SBER" candles0
            (candle_cycle parse0 (.error MErr.err) "SBER" candles0
              initState)).1 =
          (filter_new_candles "SBER" candles0 initState).1 ∧
        (candle_cycle parse0 (.ok ()) "SBER" candles0
            (candle_cycle parse0 (.error MErr.err) "SBER" candles0
              initState)).store =
          initState.store ++
            insert_values_list parse0 "SBER"
              (filter_new_candles "SBER" candles0 initState).1) :=
  ⟨by decide,
    C2_rollback_reattempt parse0 MErr.err "SBER" candles0 initState
      (by decide)⟩

/-- C9: `filter_new_candles` returns only input candles with non-empty,
pairwise-distinct begin strings that were not in the ticker's seen-set
beforehand, and afterwards the ticker's seen-set holds exactly its previous
members united with the begin strings of the returned candles. -/
theorem C9_filter_new_characterization (ticker : String)
    (candles : List Candle) (st : MonitorState) :
    (∀ c ∈ (filter_new_candles ticker candles st).1,
        c ∈ candles ∧ c.begin ≠ "" ∧ c.begin ∉ st.cache ticker) ∧
      ((filter_new_candles ticker candles st).1.map Candle.begin).Nodup ∧
      (∀ b, b ∈ (filter_new_candles ticker candles st).2.cache ticker ↔
        b ∈ st.cache ticker ∨
          b ∈ (filter_new_candles ticker candles st).1.map Candle.begin) := by
  refine ⟨?_, ?_, ?_⟩
  · intro c hc
    exact filterNewLoop_mem_new candles (st.cache ticker) c hc
  · exact filterNewLoop_nodup candles (st.cache ticker)
  · intro b
    rw [filter_new_candles_cache_self]
    exact filterNewLoop_mem_seen candles (st.cache ticker) b

/-- Witness for C9 at the scenario input, the bounded quantifiers
instantiated at the first selected candle and its begin string. -/
theorem C9_filter_new_characterization_witness :
    (Candle.mk "2024-01-01 09:30:00" 0 ∈
        (filter_new_candles "SBER" candles0 initState).1 →
      Candle.mk "2024-01-01 09:30:00" 0 ∈ candles0 ∧
        (Candle.mk "2024-01-01 09:30:00" 0).begin ≠ "" ∧
        (Candle.mk "2024-01-01 09:30:00" 0).begin ∉ initState.cache "SBER") ∧
      ((filter_new_candles "SBER" candles0 initState).1.map
        Candle.begin).Nodup ∧
      ("2024-01-01 09:30:00" ∈
          (filter_new_candles "SBER" candles0 initState).2.cache "SBER" ↔
        "2024-01-01 09:30:00" ∈ initState.cache "SBER" ∨
          "2024-01-01 09:30:00" ∈
            (filter_new_candles "SBER" candles0 initState).1.map
              Candle.begin) :=
  ⟨fun h =>
      (C9_filter_new_characterization "SBER" candles0 initState).1 _ h,
    (C9_filter_new_characterization "SBER" candles0 initState).2.1,
    (C9_filter_new_characterization "SBER" candles0 initState).2.2
      "2024-01-01 09:30:00"⟩

/-- C10: when `save_ticker_data` handles a failing insert, the rollback
touches nothing beyond the failed batch: every other ticker's seen-set is
unchanged, membership of begin strings outside the batch is unchanged, and
nothing is ever added. -/
theorem C10_rollback_frame (parse : String → Option Int) (e : MErr)
    (ticker : String) (data new_data : List Candle) (st : MonitorState) :
    (∀ t, t ≠ ticker →
        ((save_ticker_data parse (.error e) ticker data (some new_data)
            st).1).cache t = st.cache t) ∧
      (∀ b, b ∉ new_data.map Candle.begin →
        (b ∈ ((save_ticker_data parse (.error e) ticker data (some new_data)
            st).1).cache ticker ↔ b ∈ st.cache ticker)) ∧
      (∀ b, b ∈ ((save_ticker_data parse (.error e) ticker data
          (some new_data) st).1).cache ticker → b ∈ st.cache ticker) := by
  rcases save_ticker_data_err_cases parse e ticker data new_data st with
    hcase | hcase
  · rw [hcase]
    exact ⟨fun _ _ => rfl, fun _ _ => Iff.rfl, fun _ h => h⟩
  · rw [hcase]
    refine ⟨fun t ht => ?_, fun b hb => ?_, fun b hb => ?_⟩
    · simp [ht]
    · simp only [if_pos rfl, if_true, eq_self_iff_true]
      rw [mem_discardBegins]
      exact ⟨fun h => h.1, fun h => ⟨h, hb⟩⟩
    · simp only [if_pos rfl, if_true, eq_self_iff_true] at hb
      exact ((mem_discardBegins _ _ _).mp hb).1

/-- Witness for C10 at a concrete input: rollback of the scenario batch
observed at a foreign ticker, an outside begin string, and an arbitrary
surviving member. -/
theorem C10_rollback_frame_witness :
    ("GAZP" ≠ "SBER" →
      ((save_ticker_data parse0 (.error MErr.err) "SBER" candles0
          (some candles0) initState).1).cache "GAZP" =
        initState.cache "GAZP") ∧
      ("other" ∉ candles0.map Candle.begin →
        ("other" ∈ ((save_ticker_data parse0 (.error MErr.err) "SBER"
              candles0 (some candles0) initState).1).cache "SBER" ↔
          "other" ∈ initState.cache "SBER")) ∧
      ("2024-01-01 09:30:00" ∈
          ((save_ticker_data parse0 (.error MErr.err) "SBER" candles0
            (some candles0) initState).1).cache "SBER" →
        "2024-01-01 09:30:00" ∈ initState.cache "SBER") :=
  ⟨fun h =>
      (C10_rollback_frame parse0 MErr.err "SBER" candles0 candles0
        initState).1 "GAZP" h,
    fun h =>
      (C10_rollback_frame parse0 MErr.err "SBER" candles0 candles0
        initState).2.1 "other" h,
    fun h =>
      (C10_rollback_frame parse0 MErr.err "SBER" candles0 candles0
        initState).2.2 "2024-01-01 09:30:00" h⟩

/-- Witness for C1 at the scenario input. -/
theorem C1_idempotent_replay_witness :
    (candle_cycle parse0 (.ok ()) "SBER" candles0
        (candle_cycle parse0 (.ok ()) "SBER" candles0 initState)).store =
      (candle_cycle parse0 (.ok ()) "SBER" candles0 initState).store :=
  C1_idempotent_replay.1 parse0 "SBER" candles0 initState

/-- Membership in the fetch window filter: a candle is kept exactly when it
occurs in the input, its begin string is non-empty, and its begin parses to
an instant at or after the threshold. -/
theorem mem_windowFilter (parse : String → Option Int) (th : Int)
    (data : List Candle) (c : Candle) :
    c ∈ windowFilter parse th data ↔
      c ∈ data ∧ c.begin ≠ "" ∧ ∃ t, parse c.begin = some t ∧ th ≤ t := by
  induction data with
  | nil => simp [windowFilter]
  | cons d rest ih =>
    by_cases hd : d.begin = ""
    · simp only [windowFilter, if_pos hd]
      rw [ih]
      simp only [List.mem_cons]
      constructor
      · rintro ⟨h1, h2, h3⟩
        exact ⟨Or.inr h1, h2, h3⟩
      · rintro ⟨rfl | h1, h2, h3⟩
        · exact absurd hd h2
        · exact ⟨h1, h2, h3⟩
    · rcases hparse : parse d.begin with _ | t
      · simp only [windowFilter, if_neg hd, hparse]
        rw [ih]
        simp only [List.mem_cons]
        constructor
        · rintro ⟨h1, h2, h3⟩
          exact ⟨Or.inr h1, h2, h3⟩
        · rintro ⟨rfl | h1, h2, u, hu, hthu⟩
          · rw [hparse] at hu
            cases hu
          · exact ⟨h1, h2, u, hu, hthu⟩
      · by_cases hth : th ≤ t
        · simp only [windowFilter, if_neg hd, hparse, if_pos hth,
            List.mem_cons]
          rw [ih]
          constructor
          · rintro (rfl | ⟨h1, h2, h3⟩)
            · exact ⟨Or.inl rfl, hd, t, hparse, hth⟩
            · exact ⟨Or.inr h1, h2, h3⟩
          · rintro ⟨rfl | h1, h2, h3⟩
            · exact Or.inl rfl
            · exact Or.inr ⟨h1, h2, h3⟩
        · simp only [windowFilter, if_neg hd, hparse, if_neg hth]
          rw [ih]
          simp only [List.mem_cons]
          constructor
          · rintro ⟨h1, h2, h3⟩
            exact ⟨Or.inr h1, h2, h3⟩
          · rintro ⟨rfl | h1, h2, u, hu, hthu⟩
            · rw [hparse] at hu
              injection hu with he
              subst he
              exact absurd hthu hth
            · exact ⟨h1, h2, u, hu, hthu⟩

/-- C4: for every candle of the source response whose begin timestamp
parses, the window filter of `fetch_ticker_data` includes the candle exactly
when its begin instant is at or after now minus `filter_hours` hours; in
particular a candle exactly `filter_hours` before now is included and one
any amount older is excluded. -/
theorem C4_window_iff (parse : String → Option Int) (now fh : Int)
    (data : List Candle) (c : Candle) (t : Int) (hc : c ∈ data)
    (hne : c.begin ≠ "") (hp : parse c.begin = some t) :
    c ∈ fetch_ticker_data (.ok data) parse now fh ↔
      now - fh * 3600 * 1000000 ≤ t := by
  have hde : ¬ data.isEmpty := by
    intro h
    rw [List.isEmpty_iff.mp h] at hc
    simp at hc
  simp only [fetch_ticker_data, if_neg hde]
  rw [mem_windowFilter]
  constructor
  · rintro ⟨_, _, u, hu, hthu⟩
    rw [hp] at hu
    injection hu with he
    exact he ▸ hthu
  · intro hth
    exact ⟨hc, hne, t, hp, hth⟩

/-- The boundary candle: begin exactly `filter_hours` before the scenario
now. -/
def boundary0 : Candle := ⟨"2024-01-01 09:00:00", 9⟩

/-- A candle one microsecond older than the window boundary. -/
def older0 : Candle := ⟨"2024-01-01 08:59:59.999999", 8⟩

/-- The source response exercising the window boundary. -/
def windowData0 : List Candle := [boundary0, older0]

/-- Witness for C4: at the concrete boundary input the hypotheses hold and
the filter keeps the boundary candle while dropping the one-microsecond
older one. -/
theorem C4_window_iff_witness :
    boundary0 ∈ windowData0 ∧ boundary0.begin ≠ "" ∧
      parse0 boundary0.begin = some (9 * 3600 * 1000000) ∧
      (boundary0 ∈ fetch_ticker_data (.ok windowData0) parse0 now0 1 ↔
        now0 - 1 * 3600 * 1000000 ≤ 9 * 3600 * 1000000) ∧
      boundary0 ∈ fetch_ticker_data (.ok windowData0) parse0 now0 1 ∧
      older0 ∉ fetch_ticker_data (.ok windowData0) parse0 now0 1 :=
  ⟨by decide, by decide, by decide,
    C4_window_iff parse0 now0 1 windowData0 boundary0 (9 * 3600 * 1000000)
      (by decide) (by decide) (by decide),
    by decide, by decide⟩

/-- Whenever `save_ticker_data` reaches its persist call, the seen-set it
observes at that moment is the ticker's seen-set on entry (no cache
mutation precedes the call). -/
theorem save_ticker_data_trace (parse : String → Option Int)
    (execRes : Except MErr Unit) (ticker : String) (data nd : List Candle)
    (st : MonitorState) (L : List String)
    (h : (save_ticker_data parse execRes ticker data (some nd) st).2 =
      some L) : L = st.cache ticker := by
  by_cases hd : data = []
  · simp [save_ticker_data, hd] at h
  · by_cases hnd : nd = []
    · simp [save_ticker_data, hd, hnd] at h
    · rcases hres : insert_ticker_candles_batch parse execRes ticker nd
        st.store with e | s
      · simp [save_ticker_data, hd, hnd, hres] at h
        exact h.symm
      · simp [save_ticker_data, hd, hnd, hres] at h
        exact h.symm

/-- The scenario index snapshot. -/
def idx0 : IndexData := ⟨"2024-01-01 10:00:00", 0⟩

/-- C5 counterexample: in the index instantiation of the pattern, starting
from the fresh state, the persist call is made (the trace is `some` with
the seen-set observed at that moment) while the snapshot's systime key is
not in that set — refuting the claim that in every instantiation the
membership set already contains the persisted keys when the persist call is
made. -/
theorem C5_counterexample :
    (save_index_data (.ok ()) (some idx0) initState).2 = some [] ∧
      idx0.SYSTIME ∉ ([] : List String) := by
  constructor
  · rfl
  · simp

/-- C5 amended: the candle instantiation does mark optimistically — at the
moment `save_ticker_data` makes its persist call for the batch selected by
`filter_new_candles`, the ticker's seen-set already contains every begin
key of the batch — but the index instantiation marks pessimistically: at
the moment `save_index_data` makes its persist call the systime key is not
yet in the seen-set; it is present afterwards exactly when the persist
succeeded. -/
theorem C5_amended_marking :
    (∀ (parse : String → Option Int) (execRes : Except MErr Unit)
        (ticker : String) (data : List Candle) (st : MonitorState)
        (L : List String),
      (save_ticker_data parse execRes ticker data
          (some (filter_new_candles ticker data st).1)
          (filter_new_candles ticker data st).2).2 = some L →
        ∀ c ∈ (filter_new_candles ticker data st).1, c.begin ∈ L) ∧
      (∀ (execRes : Except MErr Unit) (d : IndexData) (st : MonitorState)
          (L : List String),
        (save_index_data execRes (some d) st).2 = some L →
          d.SYSTIME ∉ L ∧
            (execRes = .ok () →
              d.SYSTIME ∈
                ((save_index_data execRes (some d) st).1).index_cache) ∧
            (∀ e, execRes = .error e →
              d.SYSTIME ∉
                ((save_index_data execRes (some d) st).1).index_cache)) := by
  constructor
  · intro parse execRes ticker data st L h c hc
    have hL : L = (filter_new_candles ticker data st).2.cache ticker :=
      save_ticker_data_trace parse execRes ticker data _ _ L h
    rw [hL, filter_new_candles_cache_self]
    rw [filterNewLoop_mem_seen]
    exact Or.inr (List.mem_map_of_mem Candle.begin hc)
  · intro execRes d st L h
    by_cases hS : d.SYSTIME = ""
    · simp [save_index_data, hS] at h
    · by_cases hmem : d.SYSTIME ∈ st.index_cache
      · simp [save_index_data, hS, hmem] at h
      · rcases execRes with e | u
        · simp only [save_index_data, if_neg hS, if_neg hmem] at h ⊢
          have hL : L = st.index_cache := by
            injection h with h2
            exact h2.symm
          subst hL
          refine ⟨hmem, ?_, ?_⟩
          · intro hok
            exact absurd hok (by simp)
          · intro e2 _
            simp [List.mem_filter]
        · simp only [save_index_data, if_neg hS, if_neg hmem] at h ⊢
          have hL : L = st.index_cache := by
            injection h with h2
            exact h2.symm
          subst hL
          exact ⟨hmem, fun _ => List.mem_cons_self _ _,
            fun e2 herr => by cases herr⟩

/-- Witness for C5 amended: the scenario batch on the candle side, the
scenario snapshot with a succeeding insert on the index side. -/
theorem C5_amended_marking_witness :
    ((save_ticker_data parse0 (.ok ()) "SBER" candles0
        (some (filter_new_candles "SBER" candles0 initState).1)
        (filter_new_candles "SBER" candles0 initState).2).2 =
      some ((filter_new_candles "SBER" candles0 initState).2.cache "SBER") ∧
      ∀ c ∈ (filter_new_candles "SBER" candles0 initState).1,
        c.begin ∈
          (filter_new_candles "SBER" candles0 initState).2.cache "SBER") ∧
      ((save_index_data (.ok ()) (some idx0) initState).2 = some [] ∧
        idx0.SYSTIME ∉ ([] : List String) ∧
        (Except.ok () = (.ok () : Except MErr Unit) →
          idx0.SYSTIME ∈
            ((save_index_data (.ok ()) (some idx0) initState).1).index_cache)) :=
  ⟨⟨by decide,
      C5_amended_marking.1 parse0 (.ok ()) "SBER" candles0 initState _
        (by decide)⟩,
    by decide, by decide,
    (C5_amended_marking.2 (.ok ()) idx0 initState [] (by decide)).2.1⟩

/-- C7: `extract_tags` returns the hashtag captures lower-cased and
de-duplicated — concretely the mixed-case input yields exactly the single
tag and the tagless input yields the empty collection, and in general the
result is duplicate-free with membership exactly the lower-cased captures. -/
theorem C7_extract_tags :
    extract_tags "Hello #Tech and #tech!" = ["tech"] ∧
      extract_tags "no tags here" = [] ∧
      ∀ (text : String),
        (extract_tags text).Nodup ∧
          ∀ tag, tag ∈ extract_tags text ↔
            tag ∈ (findTags text.data).map lowerStr := by
  refine ⟨by decide, by decide, fun text => ⟨?_, fun tag => ?_⟩⟩
  · by_cases h : text = ""
    · simp [extract_tags, h]
    · simp [extract_tags, h, List.nodup_dedup]
  · by_cases h : text = ""
    · subst h
      simp [extract_tags, findTags, scanTags]
    · simp [extract_tags, h, List.mem_dedup]

/-- Witness for C7 at the mixed-case input and the tag it produces. -/
theorem C7_extract_tags_witness :
    (extract_tags "Hello #Tech and #tech!").Nodup ∧
      ("tech" ∈ extract_tags "Hello #Tech and #tech!" ↔
        "tech" ∈ (findTags ("Hello #Tech and #tech!").data).map lowerStr) :=
  ⟨(C7_extract_tags.2.2 "Hello #Tech and #tech!").1,
    (C7_extract_tags.2.2 "Hello #Tech and #tech!").2 "tech"⟩

/-- The existence probe is exactly positivity of the pair count. -/
theorem message_exists_iff_countPair (m : Int) (ch : String) (db : NewsDb) :
    message_exists m ch db = true ↔ 0 < countPair m ch db := by
  simp only [message_exists, countPair, List.any_eq_true, List.countP_pos_iff]

/-- A first `save_news` for an absent pair returns `true` and bumps the
pair's row count by one. -/
theorem save_news_first (m : Int) (ch : String) (d : Int)
    (tg : List String) (tx : String) (db : NewsDb)
    (h : message_exists m ch db = false) :
    (save_news m ch d tg tx db).1 = true ∧
      countPair m ch (save_news m ch d tg tx db).2 =
        countPair m ch db + 1 := by
  have hins : insertNews ⟨m, ch, d, tg, tx⟩ db.news =
      .ok (db.news ++ [⟨m, ch, d, tg, tx⟩]) := by
    simp only [insertNews]
    rw [if_neg]
    intro hany
    rw [show (db.news.any fun x =>
      x.msg_id == (⟨m, ch, d, tg, tx⟩ : NewsRow).msg_id &&
        x.channel == (⟨m, ch, d, tg, tx⟩ : NewsRow).channel) =
        message_exists m ch db from rfl] at hany
    rw [h] at hany
    cases hany
  simp only [save_news, h, Bool.false_eq_true, if_false, hins]
  refine ⟨by trivial, ?_⟩
  simp only [countPair, List.countP_append]
  simp

/-- Any `save_news` call keeps an already-unique pair count at one. -/
theorem save_news_preserve (m m2 : Int) (ch ch2 : String) (d : Int)
    (tg : List String) (tx : String) (db : NewsDb)
    (h : countPair m ch db = 1) :
    countPair m ch (save_news m2 ch2 d tg tx db).2 = 1 := by
  by_cases hex : message_exists m2 ch2 db = true
  · simp [save_news, hex, h]
  · have hexf : message_exists m2 ch2 db = false :=
      Bool.not_eq_true _ ▸ Bool.eq_false_iff.mpr hex
    have hins : insertNews ⟨m2, ch2, d, tg, tx⟩ db.news =
        .ok (db.news ++ [⟨m2, ch2, d, tg, tx⟩]) := by
      simp only [insertNews]
      rw [if_neg]
      intro hany
      rw [show (db.news.any fun x =>
        x.msg_id == (⟨m2, ch2, d, tg, tx⟩ : NewsRow).msg_id &&
          x.channel == (⟨m2, ch2, d, tg, tx⟩ : NewsRow).channel) =
          message_exists m2 ch2 db from rfl] at hany
      rw [hexf] at hany
      cases hany
    simp only [save_news, hexf, Bool.false_eq_true, if_false, hins]
    simp only [countPair, List.countP_append] at *
    have hrow : (List.countP
        (fun r => r.msg_id == m && r.channel == ch)
        [(⟨m2, ch2, d, tg, tx⟩ : NewsRow)]) = 0 := by
      by_cases hmm : m2 = m ∧ ch2 = ch
      · exfalso
        apply Bool.eq_false_iff.mp hexf
        rw [message_exists_iff_countPair, hmm.1, hmm.2]
        simp only [countPair]
        omega
      · simp only [List.countP, List.countP.go]
        have : ((⟨m2, ch2, d, tg, tx⟩ : NewsRow).msg_id == m &&
            (⟨m2, ch2, d, tg, tx⟩ : NewsRow).channel == ch) = false := by
          simp only [beq_iff_eq]
          by_cases h1 : m2 = m
          · have h2 : ¬ ch2 = ch := fun hcc => hmm ⟨h1, hcc⟩
            simp [h1, h2]
          · simp [h1]
        simp [this]
    omega

/-- Replaying any sequence of `save_news` calls keeps a unique pair count at
one. -/
theorem saveMany_preserve (m : Int) (ch : String) (db : NewsDb)
    (ops : List SaveOp) (h : countPair m ch db = 1) :
    countPair m ch (saveMany db ops) = 1 := by
  induction ops generalizing db with
  | nil => exact h
  | cons o rest ih =>
    exact ih _ (save_news_preserve m o.msg_id ch o.channel o.date o.tags
      o.text db h)

/-- A `save_news` call for a pair that already has a row returns `false`
and leaves the store untouched. -/
theorem save_news_dup (m : Int) (ch : String) (d : Int) (tg : List String)
    (tx : String) (db : NewsDb) (h : 0 < countPair m ch db) :
    save_news m ch d tg tx db = (false, db) := by
  have hex : message_exists m ch db = true :=
    (message_exists_iff_countPair m ch db).mpr h
  simp [save_news, hex]

/-- C3: once a first `save_news` for a pair succeeds (returning `true` and
leaving exactly one row for the pair), every later `save_news` for the same
pair — after arbitrary intervening `save_news` traffic and with arbitrary
different date, tags or text — returns `false` and leaves the store with
exactly one row for that pair. -/
theorem C3_news_unique (db : NewsDb) (m : Int) (ch : String) (d : Int)
    (tg : List String) (tx : String)
    (h : message_exists m ch db = false) :
    (save_news m ch d tg tx db).1 = true ∧
      countPair m ch (save_news m ch d tg tx db).2 = 1 ∧
      ∀ (ops : List SaveOp) (d2 : Int) (tg2 : List String) (tx2 : String),
        (save_news m ch d2 tg2 tx2
            (saveMany (save_news m ch d tg tx db).2 ops)).1 = false ∧
          countPair m ch
            (save_news m ch d2 tg2 tx2
              (saveMany (save_news m ch d tg tx db).2 ops)).2 = 1 := by
  have hz : countPair m ch db = 0 := by
    by_contra hnz
    have : message_exists m ch db = true :=
      (message_exists_iff_countPair m ch db).mpr (Nat.pos_of_ne_zero hnz)
    rw [h] at this
    cases this
  obtain ⟨hres, hcnt⟩ := save_news_first m ch d tg tx db h
  rw [hz] at hcnt
  refine ⟨hres, hcnt, fun ops d2 tg2 tx2 => ?_⟩
  have h1 : countPair m ch
      (saveMany (save_news m ch d tg tx db).2 ops) = 1 :=
    saveMany_preserve m ch _ ops hcnt
  have hdup := save_news_dup m ch d2 tg2 tx2 _ (h1 ▸ Nat.one_pos)
  rw [hdup]
  exact ⟨rfl, h1⟩

/-- Intervening traffic for the C3 witness: a row for a different pair and
a duplicate attempt for the original pair. -/
def ops0 : List SaveOp :=
  [⟨2, "chanB", 10, ["b"], "other"⟩, ⟨1, "chanA", 20, ["c"], "replay"⟩]

/-- Witness for C3 at a concrete input: pair (1, chanA) over the empty
store, with intervening traffic and a final differing-text retry. -/
theorem C3_news_unique_witness :
    message_exists 1 "chanA" emptyNewsDb = false ∧
      (save_news 1 "chanA" 0 ["a"] "text1" emptyNewsDb).1 = true ∧
      countPair 1 "chanA"
        (save_news 1 "chanA" 0 ["a"] "text1" emptyNewsDb).2 = 1 ∧
      (save_news 1 "chanA" 99 ["z"] "different"
          (saveMany (save_news 1 "chanA" 0 ["a"] "text1" emptyNewsDb).2
            ops0)).1 = false ∧
      countPair 1 "chanA"
        (save_news 1 "chanA" 99 ["z"] "different"
          (saveMany (save_news 1 "chanA" 0 ["a"] "text1" emptyNewsDb).2
            ops0)).2 = 1 :=
  have h := C3_news_unique emptyNewsDb 1 "chanA" 0 ["a"] "text1" (by decide)
  ⟨by decide, h.1, h.2.1, (h.2.2 ops0 99 ["z"] "different").1,
    (h.2.2 ops0 99 ["z"] "different").2⟩

/-- When no save session raises, the message loop completes with no
escaping exception. -/
theorem pollLoop_ok (saveErr : Nat → Option NErr) (channel : String)
    (msgs : List Msg) (i : Nat) (db : NewsDb)
    (hsv : ∀ j, saveErr j = none) :
    ∃ db1, pollLoop saveErr channel msgs i db = (db1, none) := by
  induction msgs generalizing i db with
  | nil => exact ⟨db, rfl⟩
  | cons m rest ih =>
    by_cases hm : m.text = ""
    · simp only [pollLoop, if_pos hm]
      exact ih (i + 1) db
    · simp only [pollLoop, if_neg hm, hsv i, save_news_call]
      exact ih (i + 1) _

/-- Overwriting the matching row of the cursor table makes the lookup find
the fresh row. -/
theorem find_upsert_map (channel : String) (t : Int)
    (l : List (String × Int))
    (hany : l.any (fun p => p.1 == channel) = true) :
    ((l.map fun p => if p.1 == channel then (channel, t) else p).find?
      fun p => p.1 == channel) = some (channel, t) := by
  induction l with
  | nil => cases hany
  | cons q rest ih =>
    by_cases hq : q.1 == channel
    · simp [List.find?, hq]
    · have hqf : (q.1 == channel) = false := Bool.eq_false_iff.mpr hq
      simp only [List.any_cons, hqf, Bool.false_or] at hany
      simp only [List.map_cons, hqf, Bool.false_eq_true, if_false,
        List.find?]
      exact ih hany

/-- Appending a fresh cursor row to a table holding no row for the channel
makes the lookup find the appended row. -/
theorem find_append_fresh (channel : String) (t : Int)
    (l : List (String × Int))
    (hnone : l.any (fun p => p.1 == channel) = false) :
    ((l ++ [(channel, t)]).find? fun p => p.1 == channel) =
      some (channel, t) := by
  induction l with
  | nil => simp [List.find?]
  | cons q rest ih =>
    rw [List.any_cons] at hnone
    have hq : (q.1 == channel) = false := by
      cases hqv : (q.1 == channel)
      · rfl
      · rw [hqv] at hnone
        cases hnone
    simp only [List.cons_append, List.find?, hq]
    exact ih (by rw [hq] at hnone; simpa using hnone)

/-- After an upsert of the poll cursor, reading it back yields the written
time — whether the channel row existed or not. -/
theorem getLastPollTime_update (channel : String) (t : Int) (db : NewsDb) :
    getLastPollTime channel (update_poll_state channel t db) = some t := by
  by_cases hany : db.poll.any (fun p => p.1 == channel)
  · simp only [update_poll_state, if_pos hany, getLastPollTime]
    rw [find_upsert_map channel t db.poll hany]
    rfl
  · have hf : (db.poll.any fun p => p.1 == channel) = false :=
      Bool.eq_false_iff.mpr hany
    simp only [update_poll_state, if_neg hany, getLastPollTime]
    rw [find_append_fresh channel t db.poll hf]
    rfl

/-- C6: for a channel whose entity resolution and message fetch succeeded
and whose individual saves all returned (successfully saved or skipped as
duplicate alike), `poll_channel` unconditionally upserts the channel's poll
cursor to the current wall-clock time. -/
theorem C6_cursor_unconditional (msgs : List Msg)
    (saveErr : Nat → Option NErr) (channel : String) (now : Int)
    (db : NewsDb) (hsv : ∀ j, saveErr j = none) :
    getLastPollTime channel
        (poll_channel (.ok ()) (.ok msgs) saveErr none channel now db).1 =
      some now := by
  obtain ⟨db1, hpl⟩ := pollLoop_ok saveErr channel msgs 0 db hsv
  simp only [poll_channel, hpl]
  exact getLastPollTime_update channel now db1

/-- Messages for the C6 witness: one fresh save, one duplicate of it, one
skipped empty text. -/
def msgs0 : List Msg := [⟨1, "hello #A", 5⟩, ⟨1, "hello again", 6⟩, ⟨2, "", 7⟩]

/-- Witness for C6 at a concrete input with mixed save outcomes. -/
theorem C6_cursor_unconditional_witness :
    getLastPollTime "chanA"
        (poll_channel (.ok ()) (.ok msgs0) (fun _ => none) none "chanA" 100
          emptyNewsDb).1 = some 100 :=
  C6_cursor_unconditional msgs0 (fun _ => none) "chanA" 100 emptyNewsDb
    (fun _ => rfl)

/-- C8: for every behaviour of the injected external capabilities —
including any of them raising — neither `monitor_cycle` nor `poll_channel`
lets an exception escape to its caller: every failure is caught at or below
cycle granularity. -/
theorem C8_no_escape :
    (∀ (fetchT : String → Except MErr (List Candle))
        (insertT : String → Except MErr Unit)
        (fetchI : Except MErr (Option IndexData))
        (insertI : Except MErr Unit) (parse : String → Option Int)
        (now fh : Int) (st : MonitorState),
      (monitor_cycle fetchT insertT fetchI insertI parse now fh st).2 =
        none) ∧
      (∀ (entityRes : Except NErr Unit) (msgsRes : Except NErr (List Msg))
          (saveErr : Nat → Option NErr) (updErr : Option NErr)
          (channel : String) (now : Int) (db : NewsDb),
        (poll_channel entityRes msgsRes saveErr updErr channel now db).2 =
          none) := by
  constructor
  · intro fetchT insertT fetchI insertI parse now fh st
    rfl
  · intro entityRes msgsRes saveErr updErr channel now db
    rcases entityRes with e | u
    · rcases e with _ | _ | s | _ <;> rfl
    · rcases msgsRes with e2 | msgs
      · rfl
      · rcases hpl : pollLoop saveErr channel msgs 0 db with ⟨db1, eQ⟩
        simp only [poll_channel, hpl]
        rcases eQ with _ | e3
        · rcases updErr with _ | e4
          · rfl
          · rfl
        · rfl
